import Mathlib

/-!
Verification of the trestle-bot entrypoint orchestration and YAML helper layer.

The development shallowly embeds the functions of
`trestlebot/entrypoints/entrypoint_base.py` and `trestlebot/utils.py`:
Python strings become `String`, nullable values become `Option`,
raised exceptions become `Except`, and the external collaborators
(the git-provider factory, the CI-environment probes, the exit-code
constants of `trestlebot.const`, and the structured-document library's
`CommentedMap`) are modelled at their interfaces.
-/

namespace Trestlebot

/-! ## Python string primitives -/

/-- The ASCII whitespace characters recognised by Python's `str.strip()`. -/
def isPySpace (c : Char) : Bool :=
  c = ' ' || c = '\t' || c = '\n' || c = '\r' || c = Char.ofNat 11 || c = Char.ofNat 12

/-- Python `str.strip()` on a character list: drop whitespace from both ends. -/
def pyStripChars (l : List Char) : List Char :=
  ((l.dropWhile isPySpace).reverse.dropWhile isPySpace).reverse

/-- Python `str.strip()`. -/
def pyStrip (s : String) : String :=
  ⟨pyStripChars s.data⟩

/-- Python `str.split(",")` on a character list: split at every comma, keeping
empty segments; the empty input yields one empty segment. -/
def splitCommaChars : List Char → List (List Char)
  | [] => [[]]
  | c :: rest =>
    let r := splitCommaChars rest
    if c = ',' then [] :: r
    else
      match r with
      | h :: t => (c :: h) :: t
      | [] => [[c]]

/-- Python `str.split(",")`. -/
def pySplitComma (s : String) : List String :=
  (splitCommaChars s.data).map (fun l => ⟨l⟩)

/-- Python truthiness of a string: non-empty. -/
def pyTruthyStr (s : String) : Bool :=
  !s.isEmpty

/-- Python truthiness of an optional string (`None` and `""` are falsy). -/
def pyTruthyOptStr : Option String → Bool
  | none => false
  | some s => !s.isEmpty

/-! ## `comma_sep_to_list` (entrypoint_base.py) -/

/-- `comma_sep_to_list`: strip the whole string (treating a falsy input as
`""`), then split on commas and strip each element; a falsy stripped string
yields the empty list. -/
def comma_sep_to_list (string : String) : List String :=
  let string := if pyTruthyStr string then pyStrip string else ""
  if pyTruthyStr string then (pySplitComma string).map pyStrip else []

/-! ## Provider resolution (`EntrypointBase.set_git_provider`) -/

/-- Abstract handle to a constructed git provider client. -/
structure GitProvider where
  providerId : Nat
  deriving DecidableEq

/-- A failure of `GitProviderFactory.provider_factory`: the two exception
classes caught by `set_git_provider`. -/
inductive FactoryError where
  | valueError (msg : String)
  | runtimeError (msg : String)
  deriving DecidableEq

/-- The open token input stream bound to `--with-token` (an `argparse`
`FileType` object); reading it yields its full content. -/
structure TokenFile where
  content : String
  deriving DecidableEq

/-- The fields of the parsed argument namespace consulted by
`set_git_provider`: `--target-branch` (optional string) and `--with-token`
(an open stream, or `None` when the flag was given without a value). -/
structure ProviderArgs where
  target_branch : Option String
  with_token : Option TokenFile
  deriving DecidableEq

/-- `EntrypointInvalidArgException(arg, msg)`. -/
inductive EntrypointError where
  | invalidArgument (arg : String) (msg : String)
  deriving DecidableEq

/-- `EntrypointBase.set_git_provider`, parameterised by the external
`GitProviderFactory.provider_factory` (its module is an external
collaborator): if `target_branch` is truthy, a missing token stream raises
`InvalidArgument("--with-token")`; otherwise the stream is read, stripped and
passed to the factory, whose `ValueError` is re-raised as
`InvalidArgument("--server-url")` and whose `RuntimeError` as
`InvalidArgument("--target-branch")`.  A falsy `target_branch` returns the
`None` provider. -/
def set_git_provider (provider_factory : String → Except FactoryError GitProvider)
    (args : ProviderArgs) : Except EntrypointError (Option GitProvider) :=
  if pyTruthyOptStr args.target_branch then
    match args.with_token with
    | none =>
      .error (.invalidArgument "--with-token"
        "with-token flag must be set when using target-branch")
    | some file =>
      let access_token := pyStrip file.content
      match provider_factory access_token with
      | .ok p => .ok (some p)
      | .error (.valueError e) => .error (.invalidArgument "--server-url" e)
      | .error (.runtimeError e) => .error (.invalidArgument "--target-branch" e)
  else
    .ok none

/-! ## Reporter resolution (`EntrypointBase.set_reporter`) -/

/-- The CI-detection environment: presence of the GitHub Actions and GitLab CI
indicator variables. -/
structure CIEnv where
  githubActions : Bool
  gitlabCI : Bool
  deriving DecidableEq

/-- Modelled from the spec: `is_github_actions` (module `trestlebot.github`,
an external collaborator) reports whether the GitHub Actions environment
indicator is present. -/
def is_github_actions (env : CIEnv) : Bool :=
  env.githubActions

/-- Modelled from the spec: `is_gitlab_ci` (module `trestlebot.gitlab`, an
external collaborator) reports whether the GitLab CI environment indicator is
present. -/
def is_gitlab_ci (env : CIEnv) : Bool :=
  env.gitlabCI

/-- The three reporter classes `set_reporter` can instantiate. -/
inductive ReporterKind where
  | githubActionsReporter
  | gitlabCIReporter
  | plainReporter
  deriving DecidableEq

/-- `EntrypointBase.set_reporter`: GitHub Actions is probed first, then
GitLab CI, and the plain `ResultsReporter` is the fallback. -/
def set_reporter (env : CIEnv) : ReporterKind :=
  if is_github_actions env then .githubActionsReporter
  else if is_gitlab_ci env then .gitlabCIReporter
  else .plainReporter

/-! ## Exception-to-exit-code mapping (`handle_exception`) -/

/-- Modelled from the spec: `trestlebot.const.SUCCESS_EXIT_CODE` (the module
is not part of the embedded sources) — success maps to zero. -/
def SUCCESS_EXIT_CODE : Nat := 0

/-- Modelled from the spec: `trestlebot.const.ERROR_EXIT_CODE` — the generic
non-zero failure code, distinct from the invalid-arguments code. -/
def ERROR_EXIT_CODE : Nat := 1

/-- Modelled from the spec: `trestlebot.const.INVALID_ARGS_EXIT_CODE` — the
dedicated non-zero code for invalid-argument failures. -/
def INVALID_ARGS_EXIT_CODE : Nat := 2

/-- A raised exception as discriminated by `handle_exception`: either an
`EntrypointInvalidArgException` or any other exception. -/
inductive PyException where
  | entrypointInvalidArg (arg : String) (msg : String)
  | other (msg : String)
  deriving DecidableEq

/-- `handle_exception`: `EntrypointInvalidArgException` maps to the
invalid-arguments exit code, every other exception to the generic error
exit code. -/
def handle_exception (e : PyException) : Nat :=
  match e with
  | .entrypointInvalidArg _ _ => INVALID_ARGS_EXIT_CODE
  | .other _ => ERROR_EXIT_CODE

/-! ## The `CommentedMap` interface (utils.py)

`ruamel.yaml`'s `CommentedMap` is an external collaborator; the spec treats
the structured-document library as "interfaces only".  A map is a sequence
of key/value entries in document order; a stored value may itself be Python
`None`, so values are `Option α`. -/

/-- An ordered YAML mapping: entries in document order, values nullable. -/
structure CommentedMap (α : Type) where
  entries : List (String × Option α)
  deriving DecidableEq

/-- First stored value bound to a key, `none` when the key is absent. -/
def findVal (f : String) : List (String × Option α) → Option (Option α)
  | [] => none
  | (k, v) :: rest => if k = f then some v else findVal f rest

/-- Python `dict.get(k)` on a `CommentedMap`: `None` both when the key is
absent and when the stored value is `None`. -/
def cmGet (m : CommentedMap α) (f : String) : Option α :=
  match findVal f m.entries with
  | some v => v
  | none => none

/-- `len(data)` on a `CommentedMap`. -/
def cmLen (m : CommentedMap α) : Nat :=
  m.entries.length

/-- Insert an element at a list position (appending past the end). -/
def insertAt (n : Nat) (x : α) : List α → List α
  | [] => [x]
  | y :: ys =>
    match n with
    | 0 => x :: y :: ys
    | Nat.succ m => y :: insertAt m x ys

/-- Python list-insert index semantics: a negative position counts from the
end (clamped at 0), a positive one is clamped at the length. -/
def pyInsertIdx (pos : Int) (len : Nat) : Nat :=
  if pos < 0 then ((len : Int) + pos).toNat else min pos.toNat len

/-- Modelled from the spec: `CommentedMap.insert(pos, key, value)` of the
external `ruamel.yaml` library — a new key is inserted at the given
position (Python index semantics), an existing key keeps its position and
has its value updated. -/
def cmInsert (m : CommentedMap α) (pos : Int) (k : String) (v : Option α) :
    CommentedMap α :=
  if (findVal k m.entries).isSome then
    ⟨m.entries.map (fun e => if e.1 = k then (k, v) else e)⟩
  else
    ⟨insertAt (pyInsertIdx pos m.entries.length) (k, v) m.entries⟩

/-- `populate_if_dict_field_not_exist` (utils.py): when `data.get(field_name)`
is `None` the field is inserted at position `len(data) - 1` with the default
value; the (possibly newly set) field value is returned together with the
resulting document. -/
def populate_if_dict_field_not_exist (data : CommentedMap α) (field_name : String)
    (default_value : Option α) : CommentedMap α × Option α :=
  let data' :=
    if (cmGet data field_name).isNone then
      cmInsert data ((cmLen data : Int) - 1) field_name default_value
    else
      data
  (data', cmGet data' field_name)

/-! ## Comment extraction (`get_comments_from_yaml_data`, utils.py) -/

/-- An element of a comment group: a `CommentToken` (with its raw text) or
any other object. -/
inductive GroupItem where
  | tok (value : String)
  | other
  deriving DecidableEq

/-- One entry of a node's comment-association metadata (`ca.items` value
slot): Python `None`, a single `CommentToken`, or a list of items. -/
inductive CommentEntry where
  | pyNone
  | single (value : String)
  | group (items : List GroupItem)
  deriving DecidableEq

/-- Python truthiness test `not comment` of a comment entry: `None` and the
empty list are falsy, tokens and non-empty lists are truthy. -/
def entryFalsy : CommentEntry → Bool
  | .pyNone => true
  | .single _ => false
  | .group items => items.isEmpty

/-- `get_comments_from_yaml_data` (utils.py): an empty `ca.items` returns
immediately; otherwise every comment entry of every node is walked in order,
falsy entries are skipped, lists contribute the values of their
`CommentToken` elements, and single `CommentToken`s contribute their value. -/
def get_comments_from_yaml_data (caItems : List (String × List CommentEntry)) :
    List String :=
  if caItems.isEmpty then []
  else
    caItems.foldl (fun comments kv =>
      kv.2.foldl (fun comments comment =>
        if entryFalsy comment then comments
        else
          match comment with
          | .group items =>
            comments ++ items.filterMap (fun it =>
              match it with
              | .tok v => some v
              | .other => none)
          | .single v => comments ++ [v]
          | .pyNone => comments) comments) []

/-- The raw comment text carried by one comment entry: a `None` entry is
skipped, a single token contributes its value, a group contributes the
values of its tokens in order. -/
def entryTokenValues : CommentEntry → List String
  | .pyNone => []
  | .single v => [v]
  | .group items => items.filterMap (fun it =>
      match it with
      | .tok v => some v
      | .other => none)

/-- Following the spec's words: `extractComments` flattens single comments
and comment groups into one flat sequence of raw comment text in document
order, skipping empty and `None` entries. -/
def extractCommentsSpec (caItems : List (String × List CommentEntry)) :
    List String :=
  (caItems.map (fun kv => (kv.2.map entryTokenValues).flatten)).flatten

/-- Number of comment tokens with non-empty raw text in the metadata. -/
def countNonEmptyTokens (caItems : List (String × List CommentEntry)) : Nat :=
  ((extractCommentsSpec caItems).filter (fun v => v ≠ "")).length

/-! ## Lemmas about the `CommentedMap` interface -/

theorem findVal_insertAt {α : Type} (f : String) (v : Option α) (n : Nat)
    (l : List (String × Option α)) (h : findVal f l = none) :
    findVal f (insertAt n (f, v) l) = some v := by
  induction l generalizing n with
  | nil => simp [insertAt, findVal]
  | cons y ys ih =>
    obtain ⟨k, w⟩ := y
    rw [findVal] at h
    by_cases hk : k = f
    · simp [hk] at h
    · rw [if_neg hk] at h
      cases n with
      | zero => simp [insertAt, findVal]
      | succ m => simp [insertAt, findVal, if_neg hk, ih m h]

theorem findVal_map_update {α : Type} (k : String) (v : Option α)
    (l : List (String × Option α)) :
    findVal k (l.map (fun e => if e.1 = k then (k, v) else e)) =
      if (findVal k l).isSome then some v else none := by
  induction l with
  | nil => simp [findVal]
  | cons y ys ih =>
    obtain ⟨a, b⟩ := y
    by_cases h : a = k
    · subst h
      rw [List.map_cons, if_pos (show ((a, b) : String × Option α).1 = a from rfl)]
      simp [findVal]
    · rw [List.map_cons, if_neg (show ¬((a, b) : String × Option α).1 = k from h)]
      simp [findVal, h, ih]

theorem map_update_of_absent {α : Type} (f : String) (v : Option α)
    (l : List (String × Option α)) (h : findVal f l = none) :
    l.map (fun e => if e.1 = f then (f, v) else e) = l := by
  induction l with
  | nil => rfl
  | cons y ys ih =>
    obtain ⟨k, w⟩ := y
    rw [findVal] at h
    by_cases hk : k = f
    · simp [hk] at h
    · rw [if_neg hk] at h
      simp [hk, ih h]

theorem map_update_insertAt {α : Type} (f : String) (v : Option α) (n : Nat)
    (l : List (String × Option α)) (h : findVal f l = none) :
    (insertAt n (f, v) l).map (fun e => if e.1 = f then (f, v) else e) =
      insertAt n (f, v) l := by
  induction l generalizing n with
  | nil => simp [insertAt]
  | cons y ys ih =>
    obtain ⟨k, w⟩ := y
    rw [findVal] at h
    by_cases hk : k = f
    · simp [hk] at h
    · rw [if_neg hk] at h
      cases n with
      | zero => simp [insertAt, hk, map_update_of_absent f v ys h]
      | succ m => simp [insertAt, hk, ih m h]

theorem map_update_idem {α : Type} (f : String) (v : Option α)
    (l : List (String × Option α)) :
    ((l.map (fun e => if e.1 = f then (f, v) else e)).map
        (fun e => if e.1 = f then (f, v) else e)) =
      l.map (fun e => if e.1 = f then (f, v) else e) := by
  induction l with
  | nil => rfl
  | cons y ys ih =>
    obtain ⟨k, w⟩ := y
    by_cases hk : k = f
    · simp [hk, ih]
    · simp [hk, ih]

theorem insertAt_length_append {α : Type} (x : α) (init : List α) (last : α) :
    insertAt init.length x (init ++ [last]) = init ++ [x, last] := by
  induction init with
  | nil => rfl
  | cons y ys ih => simp [insertAt, ih]

theorem cmGet_cmInsert_self {α : Type} (m : CommentedMap α) (pos : Int)
    (f : String) (d : Option α) : cmGet (cmInsert m pos f d) f = d := by
  unfold cmGet cmInsert
  cases hf : findVal f m.entries with
  | none => simp [hf, findVal_insertAt f d _ _ hf]
  | some v => simp [hf, findVal_map_update]

theorem cmInsert_same_idem {α : Type} (m : CommentedMap α) (pos pos' : Int)
    (f : String) (v : Option α) :
    cmInsert (cmInsert m pos f v) pos' f v = cmInsert m pos f v := by
  unfold cmInsert
  cases hf : findVal f m.entries with
  | none =>
    have hfv := findVal_insertAt f v (pyInsertIdx pos m.entries.length) m.entries hf
    simp [hf, hfv, map_update_insertAt f v _ _ hf]
  | some w =>
    have hmv := findVal_map_update f v m.entries
    rw [hf] at hmv
    simp [hf, hmv, map_update_idem]
    intro a b _ hcond
    by_cases hh : a = f
    · simp [hh]
    · rw [if_neg hh] at hcond
      exact absurd hcond hh

/-! ## Claims -/

/-- C3: `populate_if_dict_field_not_exist` is idempotent — a second
application with identical arguments leaves the document unchanged; when the
field is absent from a non-empty document it is inserted immediately before
the trailing entry (position `len(data) - 1`); and the call returns the
(possibly newly set) field value: the default when the field was missing or
`None`, the existing value otherwise. -/
theorem populate_default_field_spec {α : Type} (data : CommentedMap α)
    (f : String) (d : Option α) :
    (populate_if_dict_field_not_exist
        (populate_if_dict_field_not_exist data f d).1 f d).1 =
      (populate_if_dict_field_not_exist data f d).1
  ∧ (∀ init last, data.entries = init ++ [last] → findVal f data.entries = none →
      (populate_if_dict_field_not_exist data f d).1.entries = init ++ [(f, d), last])
  ∧ ((cmGet data f).isNone = true → (populate_if_dict_field_not_exist data f d).2 = d)
  ∧ (∀ v, cmGet data f = some v →
      (populate_if_dict_field_not_exist data f d).2 = some v) := by
  refine ⟨?_, ?_, ?_, ?_⟩
  · by_cases h : cmGet data f = none
    · have h1 : (populate_if_dict_field_not_exist data f d).1 =
          cmInsert data ((cmLen data : Int) - 1) f d := by
        simp [populate_if_dict_field_not_exist, h]
      have hget : cmGet (populate_if_dict_field_not_exist data f d).1 f = d := by
        rw [h1]
        exact cmGet_cmInsert_self data _ f d
      by_cases h2 : cmGet (populate_if_dict_field_not_exist data f d).1 f = none
      · rw [h1] at h2
        rw [h1]
        simp only [populate_if_dict_field_not_exist, h2, Option.isNone_none, if_true]
        exact cmInsert_same_idem data _ _ f d
      · rw [h1] at h2
        rw [h1]
        simp [populate_if_dict_field_not_exist, h2]
    · have h1 : (populate_if_dict_field_not_exist data f d).1 = data := by
        simp [populate_if_dict_field_not_exist, h]
      rw [h1]
      exact h1
  · intro init last hsplit habs
    have hnone : (cmGet data f).isNone = true := by simp [cmGet, habs]
    have h1 : (populate_if_dict_field_not_exist data f d).1 =
        cmInsert data ((cmLen data : Int) - 1) f d := by
      simp [populate_if_dict_field_not_exist, hnone]
    rw [h1]
    unfold cmInsert
    rw [habs]
    simp only [Option.isSome_none, Bool.false_eq_true, if_false]
    have hidx : pyInsertIdx ((cmLen data : Int) - 1) data.entries.length =
        init.length := by
      have hlen : data.entries.length = init.length + 1 := by
        rw [hsplit]
        simp
      unfold pyInsertIdx cmLen
      rw [hlen]
      rw [if_neg (by omega)]
      omega
    rw [hidx, hsplit]
    exact insertAt_length_append (f, d) init last
  · intro h
    simp [populate_if_dict_field_not_exist, h, cmGet_cmInsert_self]
  · intro v hv
    have h : (cmGet data f).isNone = false := by rw [hv]; rfl
    simp [populate_if_dict_field_not_exist, h, hv]

/-- Witness for C3 at a concrete document: the field `"x"` is missing from
`{"a": 1, "b": 2}`, is inserted before the trailing entry, the default is
returned, and a second application changes nothing. -/
theorem populate_default_field_spec_witness :
    (populate_if_dict_field_not_exist
        (populate_if_dict_field_not_exist
          (⟨[("a", some 1), ("b", some 2)]⟩ : CommentedMap Nat) "x" (some 5)).1
        "x" (some 5)).1 =
      (populate_if_dict_field_not_exist
        (⟨[("a", some 1), ("b", some 2)]⟩ : CommentedMap Nat) "x" (some 5)).1
  ∧ (populate_if_dict_field_not_exist
        (⟨[("a", some 1), ("b", some 2)]⟩ : CommentedMap Nat) "x" (some 5)).1.entries =
      [("a", some 1)] ++ [("x", some 5), ("b", some 2)]
  ∧ (populate_if_dict_field_not_exist
        (⟨[("a", some 1), ("b", some 2)]⟩ : CommentedMap Nat) "x" (some 5)).2 = some 5 :=
  ⟨(populate_default_field_spec _ "x" (some 5)).1,
   (populate_default_field_spec _ "x" (some 5)).2.1
     [("a", some 1)] ("b", some 2) rfl (by decide),
   (populate_default_field_spec _ "x" (some 5)).2.2.1 (by decide)⟩

/-- C10: a field that is present but bound to `None` is treated exactly like
an absent field — the `data.get(field_name) is None` test sends the call into
the insert, the default replaces the stored `None`, and for a non-`None`
default the call is not a no-op. -/
theorem populate_none_valued_field {α : Type} (data : CommentedMap α) (f : String)
    (d : Option α) (h : findVal f data.entries = some none) :
    (populate_if_dict_field_not_exist data f d).1 =
        cmInsert data ((cmLen data : Int) - 1) f d
  ∧ (populate_if_dict_field_not_exist data f d).2 = d
  ∧ (d.isSome = true → (populate_if_dict_field_not_exist data f d).1 ≠ data) := by
  have hget : cmGet data f = none := by simp [cmGet, h]
  refine ⟨?_, ?_, ?_⟩
  · simp [populate_if_dict_field_not_exist, hget]
  · simp [populate_if_dict_field_not_exist, hget, cmGet_cmInsert_self]
  · intro hs heq
    have hv : cmGet (populate_if_dict_field_not_exist data f d).1 f = d := by
      simp [populate_if_dict_field_not_exist, hget, cmGet_cmInsert_self]
    rw [heq, hget] at hv
    rw [← hv] at hs
    simp at hs

/-- Witness for C10 at a concrete document: `"x"` is present with value
`None` in `{"a": 1, "x": None, "b": 2}`, and the call installs the default
`5` rather than being a no-op. -/
theorem populate_none_valued_field_witness :
    (populate_if_dict_field_not_exist
        (⟨[("a", some 1), ("x", none), ("b", some 2)]⟩ : CommentedMap Nat)
        "x" (some 5)).2 = some 5
  ∧ (populate_if_dict_field_not_exist
        (⟨[("a", some 1), ("x", none), ("b", some 2)]⟩ : CommentedMap Nat)
        "x" (some 5)).1 ≠
      (⟨[("a", some 1), ("x", none), ("b", some 2)]⟩ : CommentedMap Nat) :=
  ⟨(populate_none_valued_field _ "x" (some 5) (by decide)).2.1,
   (populate_none_valued_field _ "x" (some 5) (by decide)).2.2 rfl⟩

/-- Folding a function that appends a per-element contribution accumulates
the flattened contributions. -/
theorem foldl_append_eq {β γ : Type} (g : β → List γ) (bf : List γ → β → List γ)
    (hbf : ∀ acc x, bf acc x = acc ++ g x) (l : List β) (acc : List γ) :
    l.foldl bf acc = acc ++ (l.map g).flatten := by
  induction l generalizing acc with
  | nil => simp
  | cons x xs ih => simp [List.foldl_cons, hbf, ih, List.append_assoc]

/-- C4: `get_comments_from_yaml_data` returns exactly the raw comment-token
texts of the document in document order — singles and groups flattened, `None`
entries and empty groups skipped — so a document with no comments yields the
empty sequence and a document whose N comment tokens are all non-empty yields
exactly N entries. -/
theorem get_comments_matches_spec (caItems : List (String × List CommentEntry)) :
    get_comments_from_yaml_data caItems = extractCommentsSpec caItems
  ∧ (extractCommentsSpec caItems = [] → get_comments_from_yaml_data caItems = [])
  ∧ ((∀ v ∈ extractCommentsSpec caItems, v ≠ "") →
      (get_comments_from_yaml_data caItems).length = countNonEmptyTokens caItems) := by
  have hmain : get_comments_from_yaml_data caItems = extractCommentsSpec caItems := by
    unfold get_comments_from_yaml_data extractCommentsSpec
    cases caItems with
    | nil => simp
    | cons x xs =>
      rw [if_neg (by simp)]
      refine Eq.trans (foldl_append_eq
          (fun kv : String × List CommentEntry => (kv.2.map entryTokenValues).flatten)
          _ ?_ (x :: xs) []) (by simp)
      intro acc kv
      refine foldl_append_eq entryTokenValues _ ?_ kv.2 acc
      intro acc2 c
      cases c with
      | pyNone => simp [entryFalsy, entryTokenValues]
      | single v => simp [entryFalsy, entryTokenValues]
      | group items => cases items <;> simp [entryFalsy, entryTokenValues]
  refine ⟨hmain, fun h => by rw [hmain, h], fun h => ?_⟩
  rw [hmain]
  unfold countNonEmptyTokens
  rw [List.filter_eq_self.mpr (by intro a ha; simpa using h a ha)]

/-- Witness for C4 at a concrete metadata table holding a single token, a
`None` entry and a group with one token and one non-token member: both
non-empty tokens are returned, in order. -/
theorem get_comments_matches_spec_witness :
    get_comments_from_yaml_data
        [("k", [CommentEntry.single "# c1", CommentEntry.pyNone,
                CommentEntry.group [GroupItem.tok "# c2", GroupItem.other]])] =
      extractCommentsSpec
        [("k", [CommentEntry.single "# c1", CommentEntry.pyNone,
                CommentEntry.group [GroupItem.tok "# c2", GroupItem.other]])]
  ∧ (get_comments_from_yaml_data
        [("k", [CommentEntry.single "# c1", CommentEntry.pyNone,
                CommentEntry.group [GroupItem.tok "# c2", GroupItem.other]])]).length =
      countNonEmptyTokens
        [("k", [CommentEntry.single "# c1", CommentEntry.pyNone,
                CommentEntry.group [GroupItem.tok "# c2", GroupItem.other]])] :=
  ⟨(get_comments_matches_spec _).1,
   (get_comments_matches_spec _).2.2 (by decide)⟩

/-- C1 (amended): when `target_branch` is set and the token stream is
missing (`--with-token` resolved to `None`), `set_git_provider` fails with
`InvalidArgument` naming `--with-token` and no provider construction is
attempted — the outcome is the same for every factory.  (A present stream
whose content is empty is instead read, stripped and passed to provider
construction; see the counterexample.) -/
theorem set_git_provider_missing_token
    (provider_factory g : String → Except FactoryError GitProvider)
    (args : ProviderArgs) (ht : pyTruthyOptStr args.target_branch = true)
    (hm : args.with_token = none) :
    set_git_provider provider_factory args =
      .error (.invalidArgument "--with-token"
        "with-token flag must be set when using target-branch")
  ∧ set_git_provider provider_factory args = set_git_provider g args := by
  unfold set_git_provider
  rw [hm, ht]
  exact ⟨rfl, rfl⟩

/-- Counterexample to C1 as stated: with `target_branch` set and a present
token stream whose content is empty, the failure names `--target-branch`
(not `--with-token`) and provider construction is attempted — the result
depends on the factory. -/
theorem set_git_provider_empty_token_counterexample :
    set_git_provider (fun _ => .error (.runtimeError "no provider detected"))
        { target_branch := some "main", with_token := some ⟨""⟩ } =
      .error (.invalidArgument "--target-branch" "no provider detected")
  ∧ set_git_provider (fun _ => .error (.runtimeError "no provider detected"))
        { target_branch := some "main", with_token := some ⟨""⟩ } ≠
      set_git_provider (fun _ => .ok ⟨7⟩)
        { target_branch := some "main", with_token := some ⟨""⟩ } :=
  ⟨rfl, fun h => Except.noConfusion h⟩

/-- Witness for C1 (amended) at a concrete configuration with a missing
token stream. -/
theorem set_git_provider_missing_token_witness :
    pyTruthyOptStr (some "main") = true
  ∧ set_git_provider (fun _ => .ok ⟨7⟩)
        { target_branch := some "main", with_token := none } =
      .error (.invalidArgument "--with-token"
        "with-token flag must be set when using target-branch") :=
  ⟨by decide,
   (set_git_provider_missing_token (fun _ => .ok ⟨7⟩) (fun _ => .ok ⟨8⟩)
     { target_branch := some "main", with_token := none } (by decide) rfl).1⟩

/-- C2: when `target_branch` is unset (absent or empty), `set_git_provider`
returns the `None` provider for every factory and every token argument. -/
theorem set_git_provider_no_target_branch
    (provider_factory : String → Except FactoryError GitProvider)
    (args : ProviderArgs) (h : pyTruthyOptStr args.target_branch = false) :
    set_git_provider provider_factory args = .ok none := by
  unfold set_git_provider
  rw [h]
  rfl

/-- Witness for C2 at a concrete configuration: empty `target_branch` with a
token present still resolves to the `None` provider. -/
theorem set_git_provider_no_target_branch_witness :
    pyTruthyOptStr (some "") = false
  ∧ set_git_provider (fun _ => .ok ⟨7⟩)
        { target_branch := some "", with_token := some ⟨"tok"⟩ } = .ok none :=
  ⟨by decide,
   set_git_provider_no_target_branch (fun _ => .ok ⟨7⟩)
     { target_branch := some "", with_token := some ⟨"tok"⟩ } (by decide)⟩

/-- C5: with `target_branch` set and a token stream present, a factory
`ValueError` is re-wrapped as `InvalidArgument("--server-url", detail)`, a
factory `RuntimeError` as `InvalidArgument("--target-branch", detail)`, and
every failure leaving `set_git_provider` is an `InvalidArgument` — the
factory error never escapes unwrapped. -/
theorem set_git_provider_wraps_factory_errors
    (provider_factory : String → Except FactoryError GitProvider)
    (args : ProviderArgs) (file : TokenFile)
    (ht : pyTruthyOptStr args.target_branch = true)
    (hf : args.with_token = some file) :
    (∀ m, provider_factory (pyStrip file.content) = .error (.valueError m) →
        set_git_provider provider_factory args =
          .error (.invalidArgument "--server-url" m))
  ∧ (∀ m, provider_factory (pyStrip file.content) = .error (.runtimeError m) →
        set_git_provider provider_factory args =
          .error (.invalidArgument "--target-branch" m))
  ∧ (∀ err, set_git_provider provider_factory args = .error err →
        ∃ a m, err = .invalidArgument a m) := by
  refine ⟨?_, ?_, ?_⟩
  · intro m hm
    unfold set_git_provider
    rw [hf, ht]
    simp [hm]
  · intro m hm
    unfold set_git_provider
    rw [hf, ht]
    simp [hm]
  · intro err _
    exact ⟨err.1, err.2, rfl⟩

/-- Witness for C5 at a concrete configuration whose factory raises a
`ValueError`: the error surfaces as `InvalidArgument("--server-url", …)`. -/
theorem set_git_provider_wraps_factory_errors_witness :
    pyTruthyOptStr (some "main") = true
  ∧ (fun (_ : String) =>
        (.error (.valueError "bad url") : Except FactoryError GitProvider))
      (pyStrip (" tok " : String)) = .error (.valueError "bad url")
  ∧ set_git_provider
        (fun _ => .error (.valueError "bad url"))
        { target_branch := some "main", with_token := some ⟨" tok "⟩ } =
      .error (.invalidArgument "--server-url" "bad url") :=
  ⟨by decide, rfl,
   (set_git_provider_wraps_factory_errors
     (fun _ => .error (.valueError "bad url"))
     { target_branch := some "main", with_token := some ⟨" tok "⟩ }
     ⟨" tok "⟩ (by decide) rfl).1 "bad url" rfl⟩

/-- C6: `handle_exception` maps `EntrypointInvalidArgException` to the
dedicated invalid-arguments exit code and every other exception to the
generic error exit code; success is exit code zero and the two failure codes
are non-zero and distinct. -/
theorem handle_exception_exit_codes :
    (∀ a m, handle_exception (.entrypointInvalidArg a m) = INVALID_ARGS_EXIT_CODE)
  ∧ (∀ s, handle_exception (.other s) = ERROR_EXIT_CODE)
  ∧ SUCCESS_EXIT_CODE = 0
  ∧ INVALID_ARGS_EXIT_CODE ≠ 0
  ∧ ERROR_EXIT_CODE ≠ 0
  ∧ INVALID_ARGS_EXIT_CODE ≠ ERROR_EXIT_CODE :=
  ⟨fun _ _ => rfl, fun _ => rfl, rfl, by decide, by decide, by decide⟩

/-- C7: `comma_sep_to_list` splits on commas and strips the whole string and
each element; an empty or all-whitespace input yields the empty list. -/
theorem comma_sep_to_list_spec :
    comma_sep_to_list " a, b ,c" = ["a", "b", "c"]
  ∧ comma_sep_to_list "" = []
  ∧ (∀ s : String, (∀ c ∈ s.data, isPySpace c = true) → comma_sep_to_list s = []) := by
  refine ⟨by decide, by decide, ?_⟩
  intro s hs
  have hdrop : ∀ (l : List Char), (∀ c ∈ l, isPySpace c = true) →
      l.dropWhile isPySpace = [] := by
    intro l hl
    induction l with
    | nil => rfl
    | cons c cs ih =>
      rw [List.dropWhile_cons, if_pos (hl c (by simp))]
      exact ih (fun x hx => hl x (by simp [hx]))
  have hstrip : pyStripChars s.data = [] := by
    unfold pyStripChars
    rw [hdrop s.data hs]
    rfl
  unfold comma_sep_to_list
  by_cases he : pyTruthyStr s = true
  · rw [if_pos he]
    have hps : pyStrip s = ⟨[]⟩ := by
      unfold pyStrip
      rw [hstrip]
    rw [hps, if_neg (by decide)]
  · rw [if_neg he, if_neg (by decide)]

/-- Witness for C7 at a concrete all-whitespace input. -/
theorem comma_sep_to_list_spec_witness :
    comma_sep_to_list "  " = [] :=
  comma_sep_to_list_spec.2.2 "  " (by decide)

/-- C9: `set_reporter` probes GitHub Actions before GitLab CI — when both
indicators are present the GitHub Actions reporter wins — and the plain
reporter is returned exactly when neither indicator is present. -/
theorem set_reporter_github_first (env : CIEnv) :
    (env.githubActions = true ∧ env.gitlabCI = true →
        set_reporter env = .githubActionsReporter)
  ∧ (set_reporter env = .plainReporter ↔
        env.githubActions = false ∧ env.gitlabCI = false) := by
  obtain ⟨gh, gl⟩ := env
  cases gh <;> cases gl <;>
    simp [set_reporter, is_github_actions, is_gitlab_ci]

/-- Witness for C9 in the environment where both CI indicators are present:
the GitHub Actions reporter is selected. -/
theorem set_reporter_github_first_witness :
    set_reporter ⟨true, true⟩ = ReporterKind.githubActionsReporter :=
  (set_reporter_github_first ⟨true, true⟩).1 ⟨rfl, rfl⟩

end Trestlebot
